import Mathlib

/-!
Verification of the dataset-preparation pipeline (YOLO-style data splitting,
photometric/occlusion augmentation, dataset merging).

The Python sources are embedded shallowly:

* Python ints are `Int`; Python floats are modelled by exact rationals
  (`ℚ`), with `int(...)` truncation made explicit (`pyInt`).
* Files are association lists from names to contents; writing a file conses
  a new entry in front, and `List.lookup` returns the newest entry, so
  re-writing a path overwrites it.
* Every random draw (`random.choice`, `random.uniform`, `random.randint`)
  is passed in explicitly as data; `random.randint(0, n)` raising
  `ValueError` for `n < 0` is modelled by an `Option` result.
* PIL's decode/transform/encode round trips are abstract functions supplied as
  parameters; `ImageDraw` painting is given explicit pixel-level semantics.
-/

/-- Python `int(q)` (truncation toward zero) on an exact rational, in
executable form: `-((-q).num / (-q).den)` is `⌈q⌉` for negative `q`, and
`q.num / q.den` is `⌊q⌋` otherwise. -/
def pyInt (q : ℚ) : ℤ :=
  if q < 0 then -((-q).num / ((-q).den : ℤ)) else q.num / (q.den : ℤ)

/-- Python `int(math.sqrt(q))` for `q ≥ 0`, in the exact-real model of
floating point: `⌊√q⌋` equals `Nat.sqrt ⌊q⌋` because `n² ≤ q ↔ n² ≤ ⌊q⌋`
for integer `n`. -/
def pyIntSqrt (q : ℚ) : ℤ := (Nat.sqrt (pyInt q).toNat : ℤ)

/-- The exact rational value of the IEEE-754 double `math.pi`. -/
def piQ : ℚ := 884279719003555 / 281474976710656

/-- A parsed YOLO label line; `occlusion.py` represents it as the list
`[cls, x_c, y_c, w, h]`. -/
structure YoloBox where
  cls : ℤ
  x_c : ℚ
  y_c : ℚ
  w : ℚ
  h : ℚ
deriving DecidableEq

/-- `occlusion.py  yolo_to_pixels` (lines 25-39): normalized centre/size to
clamped integer pixel bounds `(x_min, y_min, x_max, y_max)`. -/
def yolo_to_pixels (b : YoloBox) (img_width img_height : ℤ) : ℤ × ℤ × ℤ × ℤ :=
  let box_w : ℚ := b.w * img_width
  let box_h : ℚ := b.h * img_height
  let box_x_center : ℚ := b.x_c * img_width
  let box_y_center : ℚ := b.y_c * img_height
  (max 0 (pyInt (box_x_center - box_w / 2)),
   max 0 (pyInt (box_y_center - box_h / 2)),
   min img_width (pyInt (box_x_center + box_w / 2)),
   min img_height (pyInt (box_y_center + box_h / 2)))

/-- An RGB image buffer: dimensions plus a pixel map (PIL's in-memory
image). -/
structure Img where
  width : ℤ
  height : ℤ
  pix : ℤ → ℤ → ℕ × ℕ × ℕ

/-- `ImageDraw.Draw(img).rectangle([x0,y0,x1,y1], fill=c)`: paints the
inclusive pixel rectangle, clipped to the image bounds. -/
def fillRect (img : Img) (x0 y0 x1 y1 : ℤ) (c : ℕ × ℕ × ℕ) : Img :=
  { img with pix := fun x y =>
      if 0 ≤ x ∧ x < img.width ∧ 0 ≤ y ∧ y < img.height ∧
          x0 ≤ x ∧ x ≤ x1 ∧ y0 ≤ y ∧ y ≤ y1 then c else img.pix x y }

/-- `ImageDraw.Draw(img).ellipse([x0,y0,x1,y1], fill=c)`: paints the filled
ellipse inscribed in the inclusive bounding rectangle, clipped to the image
bounds. -/
def fillEllipse (img : Img) (x0 y0 x1 y1 : ℤ) (c : ℕ × ℕ × ℕ) : Img :=
  { img with pix := fun x y =>
      if 0 ≤ x ∧ x < img.width ∧ 0 ≤ y ∧ y < img.height ∧
          (2 * x - (x0 + x1)) ^ 2 * (y1 - y0) ^ 2 +
            (2 * y - (y0 + y1)) ^ 2 * (x1 - x0) ^ 2 ≤
            (x1 - x0) ^ 2 * (y1 - y0) ^ 2 then c else img.pix x y }

/-- `occlusion.py` line 10. -/
def DEFAULT_OCCLUSION_RATIOS : List ℚ := [30 / 100, 40 / 100, 50 / 100, 60 / 100]

/-- `occlusion.py` line 11 (grey). -/
def DEFAULT_OCCLUSION_COLOR : ℕ × ℕ × ℕ := (128, 128, 128)

/-- The random draws `apply_occlusion` makes for one box: `ratio` is
`random.choice(ratios)`, `isRect` selects between
`random.choice(['rectangle', 'circle'])`, `aspect` is
`random.uniform(0.5, 2.0)`, and `offX` / `offY` are the values returned by
`random.randint(0, max_x)` / `random.randint(0, max_y)` when those calls
succeed. -/
structure OccDraw where
  ratio : ℚ
  isRect : Bool
  aspect : ℚ
  offX : ℤ
  offY : ℤ
deriving DecidableEq

/-- Occlusion size for one box (`occlusion.py` lines 59-89): the clamped
`(occ_w, occ_h)` of the rectangle variant, or `(diameter, diameter)` of the
circle variant.  Python's floor division `min_dim // 2` is `Int`'s `/ 2`
(the divisor is positive, so Euclidean and floor division agree). -/
def occSize (obj_w obj_h : ℤ) (d : OccDraw) : ℤ × ℤ :=
  let target_occ_area : ℚ := ((obj_w * obj_h : ℤ) : ℚ) * d.ratio
  if d.isRect then
    (min (pyIntSqrt (target_occ_area * d.aspect)) obj_w,
     min (pyIntSqrt (target_occ_area / d.aspect)) obj_h)
  else
    let radius := min (pyIntSqrt (target_occ_area / piQ)) (min obj_w obj_h / 2)
    (radius * 2, radius * 2)

/-- One iteration of the `for box in boxes` loop of
`occlusion.py  apply_occlusion` (lines 49-94): skip the box when its pixel
area is `≤ 0`, otherwise compute the occlusion size and paint.  `none`
models the `ValueError` that `random.randint(0, n)` raises when `n < 0`. -/
def occludeBox (img : Img) (b : YoloBox) (d : OccDraw) (color : ℕ × ℕ × ℕ) :
    Option Img :=
  let p := yolo_to_pixels b img.width img.height
  let obj_w := p.2.2.1 - p.1
  let obj_h := p.2.2.2 - p.2.1
  if obj_w * obj_h ≤ 0 then some img
  else
    let s := occSize obj_w obj_h d
    if obj_w - s.1 < 0 ∨ obj_h - s.2 < 0 then none
    else
      let start_x := p.1 + d.offX
      let start_y := p.2.1 + d.offY
      if d.isRect then
        some (fillRect img start_x start_y (start_x + s.1) (start_y + s.2) color)
      else
        some (fillEllipse img start_x start_y (start_x + s.1) (start_y + s.2) color)

/-- `occlusion.py  apply_occlusion` (lines 41-96) over the whole box list,
with one `OccDraw` per box. -/
def apply_occlusion (img : Img) (boxes : List YoloBox) (draws : List OccDraw)
    (color : ℕ × ℕ × ℕ) : Option Img :=
  (boxes.zip draws).foldlM (fun im bd => occludeBox im bd.1 bd.2 color) img

/-- One whitespace token of a label line, classified by which Python numeric
conversions accept it: `int()` and `float()` both accept `intTok`, only
`float()` accepts `floatTok`, neither accepts `bad`. -/
inductive Tok where
  | intTok (n : ℤ)
  | floatTok (q : ℚ)
  | bad
deriving DecidableEq

/-- Result of Python `int(token)`. -/
def Tok.toInt : Tok → Option ℤ
  | .intTok n => some n
  | _ => none

/-- Result of Python `float(token)`. -/
def Tok.toFloat : Tok → Option ℚ
  | .intTok n => some (n : ℚ)
  | .floatTok q => some q
  | .bad => none

/-- The content of a label file: its lines, each already split into
whitespace tokens. -/
abbrev LabelContent := List (List Tok)

/-- One iteration of the line loop in `occlusion.py  parse_label_file`
(lines 105-112): a line yields a box iff it has at least five tokens, the
first parses as `int` and the next four as `float`; otherwise the line is
skipped (`ValueError` → `continue`). -/
def parseLine : List Tok → Option YoloBox
  | c :: x :: y :: w :: h :: _ =>
    match c.toInt, x.toFloat, y.toFloat, w.toFloat, h.toFloat with
    | some ci, some xv, some yv, some wv, some hv =>
      some { cls := ci, x_c := xv, y_c := yv, w := wv, h := hv }
    | _, _, _, _, _ => none
  | _ => none

/-- `occlusion.py  parse_label_file` (lines 98-113); a `none` argument
models a missing label file (`os.path.exists` false gives `[]`). -/
def parse_label_file : Option LabelContent → List YoloBox
  | none => []
  | some lines => lines.filterMap parseLine

/-- Directory state for one `images`/`labels` tree pair: association lists
from file name to content.  An image name is its `(base, extension)` pair
(`os.path.splitext`); a label name is its base (the extension is always
`.txt`).  `ι` is the image content type, `lab` the label content type. -/
structure DState (ι lab : Type) where
  images : List ((String × String) × ι)
  labels : List (String × lab)
deriving DecidableEq

/-- `blur.py  get_all_current_images` (lines 68-82) and
`occlusion.py  get_all_current_images` (lines 115-123): the pre-run snapshot
of the image names whose extension is accepted (the sources compare
lower-cased names; extensions are taken as already lower-case here). -/
def get_all_current_images {ι lab : Type} (st : DState ι lab)
    (exts : List String) : List (String × String) :=
  (st.images.map Prod.fst).filter (fun k => k.2 ∈ exts)

/-- `blur.py  process_image` (lines 31-65): if the mirrored label is absent,
return `False`; otherwise open the image (a decode failure takes the
`except` branch, also `False`), save the blurred image and a byte-for-byte
copy of the label under `base ++ suffix`, and return `True`.  `blurEnc`
stands for PIL's decode-blur-encode round trip. -/
def process_image (blurEnc : String → String) (st : DState String String)
    (base ext suffix : String) : DState String String × Bool :=
  match st.labels.lookup base with
  | none => (st, false)
  | some lbl =>
    match st.images.lookup (base, ext) with
    | none => (st, false)
    | some imgC =>
      ({ images := ((base ++ suffix, ext), blurEnc imgC) :: st.images,
         labels := (base ++ suffix, lbl) :: st.labels }, true)

/-- Result record of one `blur_dataset` run, together with a ghost log
`readImages` of exactly which image paths the loop handed to
`process_image`, in order. -/
structure BlurRun where
  state : DState String String
  processed : ℕ
  failed : ℕ
  readImages : List (String × String)
deriving DecidableEq

/-- The loop body of `blur.py  blur_dataset` (lines 142-148): a `True`
return counts as processed, a `False` return (including the missing-label
case) counts as failed. -/
def blurStep (blurEnc : String → String) (suffix : String) (acc : BlurRun)
    (k : String × String) : BlurRun :=
  let r := process_image blurEnc acc.state k.1 k.2 suffix
  { state := r.1,
    processed := acc.processed + (if r.2 then 1 else 0),
    failed := acc.failed + (if r.2 then 0 else 1),
    readImages := acc.readImages ++ [k] }

/-- `blur.py  blur_dataset` (lines 118-164): snapshot the image list first,
then process every snapshot entry. -/
def blur_dataset (blurEnc : String → String) (suffix : String)
    (exts : List String) (st : DState String String) : BlurRun :=
  (get_all_current_images st exts).foldl (blurStep blurEnc suffix) ⟨st, 0, 0, []⟩

/-- `brightness.py  generate_brightness_augmentation` (lines 22-54): check
the image and the label exist, save the brightened image as
`{base}_bright{blabel}_aug{n}.jpg`, and re-write the label content under the
same derived base name.  `blabel` is the formatted factor string
`f"{factor:.2f}".replace(".", "_")`; `enc` stands for PIL's
decode-brighten-encode round trip; the label copy is a text read followed by
a text write of the same content. -/
def generate_brightness_augmentation (enc : String → String)
    (st : DState String String) (base ext blabel : String) (augNum : ℕ) :
    DState String String × Bool :=
  match st.images.lookup (base, ext) with
  | none => (st, false)
  | some imgC =>
    match st.labels.lookup base with
    | none => (st, false)
    | some lbl =>
      ({ images := ((base ++ "_bright" ++ blabel ++ "_aug" ++ toString augNum, ".jpg"),
            enc imgC) :: st.images,
         labels := (base ++ "_bright" ++ blabel ++ "_aug" ++ toString augNum, lbl)
            :: st.labels }, true)

/-- Outcome of one image in `occlusion.py  run_augmentation`. -/
inductive StepOutcome where
  | success
  | skipped
  | failed
deriving DecidableEq

/-- One iteration of the main loop of `occlusion.py  run_augmentation`
(lines 163-200): parse the label (a missing file parses to no boxes), skip
when no box parses, otherwise open the image (a decode failure takes the
`except` branch and counts as failed), save the occluded image and a
byte-for-byte copy (`shutil.copy2`) of the label under `base ++ "_occ"`.
`enc` stands for decode, `apply_occlusion` and encode on the abstract image
content type `ι`. -/
def runAugStep {ι : Type} (enc : ι → ι) (st : DState ι LabelContent)
    (base ext : String) : DState ι LabelContent × StepOutcome :=
  match st.labels.lookup base with
  | none => (st, .skipped)
  | some lbl =>
    if (parse_label_file (some lbl)).isEmpty then (st, .skipped)
    else
      match st.images.lookup (base, ext) with
      | none => (st, .failed)
      | some imgC =>
        ({ images := ((base ++ "_occ", ext), enc imgC) :: st.images,
           labels := (base ++ "_occ", lbl) :: st.labels }, .success)

/-- Counters of one `run_augmentation` run. -/
structure OccRun (ι : Type) where
  state : DState ι LabelContent
  success : ℕ
  fail : ℕ
  skip : ℕ
deriving DecidableEq

/-- The loop body of `occlusion.py  run_augmentation` with its three
counters. -/
def occRunStep {ι : Type} (enc : ι → ι) (acc : OccRun ι) (k : String × String) :
    OccRun ι :=
  let r := runAugStep enc acc.state k.1 k.2
  { state := r.1,
    success := acc.success + (if r.2 = .success then 1 else 0),
    fail := acc.fail + (if r.2 = .failed then 1 else 0),
    skip := acc.skip + (if r.2 = .skipped then 1 else 0) }

/-- `occlusion.py  run_augmentation` (lines 125-207): snapshot the image
list, then fold the per-image step over the snapshot. -/
def run_augmentation {ι : Type} (enc : ι → ι) (exts : List String)
    (st : DState ι LabelContent) : OccRun ι :=
  (get_all_current_images st exts).foldl (occRunStep enc) ⟨st, 0, 0, 0⟩

/-- Size computation of `split.py  split_dataset` (lines 137-141), the
ratios as exact rationals: `int()` truncation of `total * ratio`, the test
share taking the remainder. -/
def split_sizes (total : ℕ) (train_ratio val_ratio : ℚ) : ℤ × ℤ × ℤ :=
  (pyInt ((total : ℚ) * train_ratio),
   pyInt ((total : ℚ) * val_ratio),
   (total : ℤ) - pyInt ((total : ℚ) * train_ratio) - pyInt ((total : ℚ) * val_ratio))

/-- Capping step of `split.py  split_dataset` (lines 130-135): truncate the
shuffled pair list to `max_total` when it is longer. -/
def capPairs {α : Type} (pairs : List α) (max_total : ℕ) : List α :=
  if pairs.length > max_total then pairs.take max_total else pairs

/-- One source root for `merge.py  merge_datasets`: the tag
`source_path.parent.name`, the `(stem, suffix)` pairs of the files in its
`images` folder (in `iterdir` order), and the stems of the `*.txt` files in
its `labels` folder. -/
structure MSource where
  tag : String
  imgFiles : List (String × String)
  lblStems : List String
deriving DecidableEq

/-- The matched tasks of one source (`merge.py` lines 29-34): the dict
`{img.stem: img}` keeps exactly one entry per stem (the last file with that
stem wins), and a stem is matched when a `.txt` label with the same stem
exists.  Each task records `(stem, suffix, dataset_name)`.  Python iterates
`matched_stems` (a set) in unspecified order; the model fixes one order,
which no counted quantity depends on. -/
def matchedTasks (s : MSource) : List (String × String × String) :=
  ((s.imgFiles.map Prod.fst).dedup.filter (fun stem => stem ∈ s.lblStems)).map
    (fun stem =>
      (stem,
       (((s.imgFiles.reverse.find? (fun p => p.1 == stem)).map Prod.snd).getD ""),
       s.tag))

/-- `shutil.copy2` into a destination folder: a new path is appended, an
existing path is overwritten (the file count does not change). -/
def copyNew {β : Type} [DecidableEq β] (dest : List β) (name : β) : List β :=
  if name ∈ dest then dest else dest ++ [name]

/-- Destination folders of a merge.  A destination image path is the pair
`(new_stem, suffix)`: distinct pairs are distinct paths, because a real
path's suffix is everything from its last dot onward.  A destination label
path is just `new_stem` (its extension is always `.txt`). -/
structure MergeResult where
  destImages : List (String × String)
  destLabels : List String
deriving DecidableEq

/-- The destination base name of one task (`merge.py` line 43). -/
def newStem (prefixed : Bool) (t : String × String × String) : String :=
  if prefixed then t.2.2 ++ "_" ++ t.1 else t.1

/-- The copy step of `merge.py  merge_datasets` (lines 42-46). -/
def mergeStep (prefixed : Bool) (r : MergeResult) (t : String × String × String) :
    MergeResult :=
  { destImages := copyNew r.destImages (newStem prefixed t, t.2.1),
    destLabels := copyNew r.destLabels (newStem prefixed t) }

/-- `merge.py  merge_datasets` (lines 5-59): gather all matched tasks across
the sources, then copy each into the shared destination `images`/`labels`
folders, prefixing the stem with `{dataset_name}_` when requested. -/
def merge_datasets (sources : List MSource) (prefixed : Bool) : MergeResult :=
  ((sources.map matchedTasks).flatten).foldl (mergeStep prefixed) ⟨[], []⟩

/-- A 10x10 all-black test image. -/
def cImg : Img := { width := 10, height := 10, pix := fun _ _ => (0, 0, 0) }

/-- A box whose pixel size on `cImg` is 3x3, so both dimensions are ≤ 5. -/
def cBox : YoloBox := { cls := 0, x_c := 1 / 2, y_c := 1 / 2, w := 3 / 10, h := 3 / 10 }

/-- Concrete draws: ratio 0.30 (the first default), rectangle, aspect 1,
both offsets 0. -/
def cDraw : OccDraw := { ratio := 30 / 100, isRect := true, aspect := 1, offX := 0, offY := 0 }

/-- A degenerate box (zero width and height). -/
def cDegBox : YoloBox := { cls := 0, x_c := 1 / 2, y_c := 1 / 2, w := 0, h := 0 }

/-- A box for the pixel-conversion witness. -/
def cWitBox : YoloBox := { cls := 0, x_c := 1 / 2, y_c := 1 / 2, w := 1 / 5, h := 1 / 5 }

/-- Blur-run state with one image and no label at all. -/
def noLabelState : DState String String :=
  { images := [(( "a", ".jpg"), "IMG")], labels := [] }

/-- Blur-run state with one matched image/label pair. -/
def wState : DState String String :=
  { images := [(( "a", ".jpg"), "I")], labels := [( "a", "L")] }

/-- The state `process_image` produces from `wState`. -/
def wStateOut : DState String String :=
  { images := [(( "a_blur", ".jpg"), "I"), (( "a", ".jpg"), "I")],
    labels := [( "a_blur", "L"), ( "a", "L")] }

/-- Occlusion-run state whose only label line is a single unparsable
token. -/
def badLblState : DState ℕ LabelContent :=
  { images := [(( "a", ".jpg"), 0)], labels := [( "a", [[Tok.bad]])] }

/-- Merge source with tag `a` and one matched pair with stem `b_c`. -/
def mSrcA : MSource :=
  { tag := "a", imgFiles := [( "b_c", ".jpg")], lblStems := [ "b_c"] }

/-- Merge source with tag `a_b` and one matched pair with stem `c`:
disjoint from `mSrcA`'s stems, yet the prefixed destination base names
collide (`a_b_c` both times). -/
def mSrcAB : MSource :=
  { tag := "a_b", imgFiles := [( "c", ".jpg")], lblStems := [ "c"] }

/-- Merge source for the witness: tag `p`, one pair with stem `x`. -/
def wSrc1 : MSource :=
  { tag := "p", imgFiles := [( "x", ".jpg")], lblStems := [ "x"] }

/-- Merge source for the witness: tag `q`, one pair with stem `y`. -/
def wSrc2 : MSource :=
  { tag := "q", imgFiles := [( "y", ".jpg")], lblStems := [ "y"] }

/-! ## Helper lemmas -/

/-- `pyInt` agrees with ceiling below zero and floor at or above zero. -/
theorem pyInt_eq (q : ℚ) : pyInt q = if q < 0 then ⌈q⌉ else ⌊q⌋ := by
  unfold pyInt
  by_cases h : q < 0
  · rw [if_pos h, if_pos h, show ((-q).num / ((-q).den : ℤ)) = ⌊-q⌋ from (Rat.floor_def).symm,
      Int.floor_neg, neg_neg]
  · rw [if_neg h, if_neg h, ← Rat.floor_def]

/-- On nonnegative input, Python truncation is the floor. -/
theorem pyInt_eq_floor {q : ℚ} (h : 0 ≤ q) : pyInt q = ⌊q⌋ := by
  rw [pyInt_eq, if_neg (not_lt.2 h)]

/-- Python truncation is monotone. -/
theorem pyInt_mono {a b : ℚ} (h : a ≤ b) : pyInt a ≤ pyInt b := by
  rw [pyInt_eq, pyInt_eq]
  by_cases ha : a < 0 <;> by_cases hb : b < 0
  · rw [if_pos ha, if_pos hb]
    exact Int.ceil_le_ceil h
  · rw [if_pos ha, if_neg hb]
    have h1 : ⌈a⌉ ≤ 0 := Int.ceil_le.2 (by exact_mod_cast ha.le)
    have h2 : 0 ≤ ⌊b⌋ := Int.floor_nonneg.2 (not_lt.1 hb)
    omega
  · exact absurd (lt_of_le_of_lt h hb) ha
  · rw [if_neg ha, if_neg hb]
    exact Int.floor_le_floor h

/-- Python truncation of a nonnegative rational is nonnegative. -/
theorem pyInt_nonneg {q : ℚ} (h : 0 ≤ q) : 0 ≤ pyInt q := by
  rw [pyInt_eq_floor h]
  exact Int.floor_nonneg.2 h

/-- Python truncation respects an integer upper bound that is
nonnegative. -/
theorem pyInt_le_intCast {q : ℚ} {n : ℤ} (hn : 0 ≤ n) (h : q ≤ (n : ℚ)) :
    pyInt q ≤ n := by
  rw [pyInt_eq]
  by_cases hq : q < 0
  · rw [if_pos hq]
    exact le_trans (Int.ceil_le.2 (by exact_mod_cast hq.le)) hn
  · rw [if_neg hq]
    calc ⌊q⌋ ≤ ⌊(n : ℚ)⌋ := Int.floor_le_floor h
    _ = n := Int.floor_intCast n

/-! ## C3: pixel conversion is bounds-clamped and ordered -/

/-- C3: for every box whose four normalized floats lie in `[0, 1]` and every
image with positive integer width `W` and height `H`, `yolo_to_pixels`
returns coordinates with `0 ≤ x_min ≤ x_max ≤ W` and
`0 ≤ y_min ≤ y_max ≤ H`. -/
theorem yolo_to_pixels_bounds (b : YoloBox) (W H : ℤ)
    (hW : 0 < W) (hH : 0 < H)
    (hx0 : 0 ≤ b.x_c) (hx1 : b.x_c ≤ 1) (hy0 : 0 ≤ b.y_c) (hy1 : b.y_c ≤ 1)
    (hw0 : 0 ≤ b.w) (hw1 : b.w ≤ 1) (hh0 : 0 ≤ b.h) (hh1 : b.h ≤ 1) :
    0 ≤ (yolo_to_pixels b W H).1 ∧
    (yolo_to_pixels b W H).1 ≤ (yolo_to_pixels b W H).2.2.1 ∧
    (yolo_to_pixels b W H).2.2.1 ≤ W ∧
    0 ≤ (yolo_to_pixels b W H).2.1 ∧
    (yolo_to_pixels b W H).2.1 ≤ (yolo_to_pixels b W H).2.2.2 ∧
    (yolo_to_pixels b W H).2.2.2 ≤ H := by
  have hWq : (0 : ℚ) ≤ (W : ℚ) := by exact_mod_cast hW.le
  have hHq : (0 : ℚ) ≤ (H : ℚ) := by exact_mod_cast hH.le
  have hbw : (0 : ℚ) ≤ b.w * W := mul_nonneg hw0 hWq
  have hbh : (0 : ℚ) ≤ b.h * H := mul_nonneg hh0 hHq
  have hxc0 : (0 : ℚ) ≤ b.x_c * W := mul_nonneg hx0 hWq
  have hyc0 : (0 : ℚ) ≤ b.y_c * H := mul_nonneg hy0 hHq
  have hxcW : b.x_c * W ≤ (W : ℚ) := by
    calc b.x_c * W ≤ 1 * W := mul_le_mul_of_nonneg_right hx1 hWq
    _ = (W : ℚ) := one_mul _
  have hycH : b.y_c * H ≤ (H : ℚ) := by
    calc b.y_c * H ≤ 1 * H := mul_le_mul_of_nonneg_right hy1 hHq
    _ = (H : ℚ) := one_mul _
  have tx1 : pyInt (b.x_c * W - b.w * W / 2) ≤ pyInt (b.x_c * W + b.w * W / 2) :=
    pyInt_mono (by linarith)
  have tx2 : 0 ≤ pyInt (b.x_c * W + b.w * W / 2) := pyInt_nonneg (by linarith)
  have tx3 : pyInt (b.x_c * W - b.w * W / 2) ≤ W := pyInt_le_intCast hW.le (by linarith)
  have ty1 : pyInt (b.y_c * H - b.h * H / 2) ≤ pyInt (b.y_c * H + b.h * H / 2) :=
    pyInt_mono (by linarith)
  have ty2 : 0 ≤ pyInt (b.y_c * H + b.h * H / 2) := pyInt_nonneg (by linarith)
  have ty3 : pyInt (b.y_c * H - b.h * H / 2) ≤ H := pyInt_le_intCast hH.le (by linarith)
  simp only [yolo_to_pixels]
  refine ⟨?_, ?_, ?_, ?_, ?_, ?_⟩ <;> omega

/-- Witness for C3 at a concrete box and image size. -/
theorem yolo_to_pixels_bounds_witness :
    (0 : ℤ) < 100 ∧ (0 : ℚ) ≤ cWitBox.w ∧
    0 ≤ (yolo_to_pixels cWitBox 100 100).1 ∧
    (yolo_to_pixels cWitBox 100 100).1 ≤ (yolo_to_pixels cWitBox 100 100).2.2.1 ∧
    (yolo_to_pixels cWitBox 100 100).2.2.1 ≤ 100 := by
  have h := yolo_to_pixels_bounds cWitBox 100 100 (by norm_num) (by norm_num)
    (by norm_num [cWitBox]) (by norm_num [cWitBox]) (by norm_num [cWitBox])
    (by norm_num [cWitBox]) (by norm_num [cWitBox]) (by norm_num [cWitBox])
    (by norm_num [cWitBox]) (by norm_num [cWitBox])
  exact ⟨by norm_num, by norm_num [cWitBox], h.1, h.2.1, h.2.2.1⟩

/-! ## C2: occlusion size is clamped, randint never raises -/

/-- The clamped occlusion size never exceeds the object size, whatever the
draws were. -/
theorem occSize_le (obj_w obj_h : ℤ) (d : OccDraw) :
    (occSize obj_w obj_h d).1 ≤ obj_w ∧ (occSize obj_w obj_h d).2 ≤ obj_h := by
  unfold occSize
  by_cases hr : d.isRect
  · rw [if_pos hr]
    exact ⟨min_le_right _ _, min_le_right _ _⟩
  · rw [if_neg hr]
    have h1 : min (pyIntSqrt (((obj_w * obj_h : ℤ) : ℚ) * d.ratio / piQ))
        (min obj_w obj_h / 2) ≤ min obj_w obj_h / 2 := min_le_right _ _
    constructor <;> simp only [] <;> omega

/-- C2: for every box, under both the rectangle and the ellipse variant and
for every random draw, the computed occlusion dimensions satisfy
`occ_w ≤ obj_w` and `occ_h ≤ obj_h` after clamping, the placement slacks are
nonnegative, and `occludeBox` never reaches the `random.randint` error
branch (it always returns `some`). -/
theorem apply_occlusion_clamped :
    (∀ (obj_w obj_h : ℤ) (d : OccDraw),
        (occSize obj_w obj_h d).1 ≤ obj_w ∧ (occSize obj_w obj_h d).2 ≤ obj_h ∧
        0 ≤ obj_w - (occSize obj_w obj_h d).1 ∧
        0 ≤ obj_h - (occSize obj_w obj_h d).2) ∧
    (∀ (img : Img) (b : YoloBox) (d : OccDraw) (color : ℕ × ℕ × ℕ),
        (occludeBox img b d color).isSome = true) := by
  constructor
  · intro obj_w obj_h d
    have h := occSize_le obj_w obj_h d
    exact ⟨h.1, h.2, by omega, by omega⟩
  · intro img b d color
    have h := occSize_le ((yolo_to_pixels b img.width img.height).2.2.1 -
        (yolo_to_pixels b img.width img.height).1)
      ((yolo_to_pixels b img.width img.height).2.2.2 -
        (yolo_to_pixels b img.width img.height).2.1) d
    simp only [occludeBox]
    split
    · rfl
    · rw [if_neg (by omega)]
      split <;> rfl

/-! ## C1: which boxes does apply_occlusion skip? -/

/-- C1 (amended): a box is skipped with no paint exactly when its pixel area
is `≤ 0`; `apply_occlusion` has no minimum-size guard beyond that. -/
theorem occludeBox_skips_nonpositive_area (img : Img) (b : YoloBox)
    (d : OccDraw) (color : ℕ × ℕ × ℕ)
    (h : ((yolo_to_pixels b img.width img.height).2.2.1 -
          (yolo_to_pixels b img.width img.height).1) *
         ((yolo_to_pixels b img.width img.height).2.2.2 -
          (yolo_to_pixels b img.width img.height).2.1) ≤ 0) :
    occludeBox img b d color = some img := by
  simp only [occludeBox]
  rw [if_pos h]

/-- Witness for the amended C1 at a degenerate (zero-size) box. -/
theorem occludeBox_skips_nonpositive_area_witness :
    (((yolo_to_pixels cDegBox cImg.width cImg.height).2.2.1 -
        (yolo_to_pixels cDegBox cImg.width cImg.height).1) *
       ((yolo_to_pixels cDegBox cImg.width cImg.height).2.2.2 -
        (yolo_to_pixels cDegBox cImg.width cImg.height).2.1) ≤ 0) ∧
    occludeBox cImg cDegBox cDraw DEFAULT_OCCLUSION_COLOR = some cImg := by
  have hyp : yolo_to_pixels cDegBox cImg.width cImg.height = (5, 5, 5, 5) := by
    show yolo_to_pixels cDegBox 10 10 = (5, 5, 5, 5)
    norm_num [yolo_to_pixels, cDegBox, pyInt_eq_floor]
  have hguard : ((yolo_to_pixels cDegBox cImg.width cImg.height).2.2.1 -
      (yolo_to_pixels cDegBox cImg.width cImg.height).1) *
      ((yolo_to_pixels cDegBox cImg.width cImg.height).2.2.2 -
       (yolo_to_pixels cDegBox cImg.width cImg.height).2.1) ≤ 0 := by
    rw [hyp]
    norm_num
  exact ⟨hguard,
    occludeBox_skips_nonpositive_area cImg cDegBox cDraw DEFAULT_OCCLUSION_COLOR hguard⟩

/-- C1 (counterexample): on a 10x10 all-black image, a 3x3-pixel box (width
and height both ≤ 5, pixel area 9 > 0) is not skipped: `apply_occlusion`
paints pixel (3, 3) grey, so the image buffer changes for that box. -/
theorem occlusion_paints_small_box :
    ((yolo_to_pixels cBox cImg.width cImg.height).2.2.1 -
       (yolo_to_pixels cBox cImg.width cImg.height).1 = 3) ∧
    ((yolo_to_pixels cBox cImg.width cImg.height).2.2.2 -
       (yolo_to_pixels cBox cImg.width cImg.height).2.1 = 3) ∧
    ((apply_occlusion cImg [cBox] [cDraw] DEFAULT_OCCLUSION_COLOR).map
        (fun i => i.pix 3 3)) = some (128, 128, 128) ∧
    cImg.pix 3 3 = (0, 0, 0) ∧
    apply_occlusion cImg [cBox] [cDraw] DEFAULT_OCCLUSION_COLOR ≠ some cImg := by
  have hyp : yolo_to_pixels cBox cImg.width cImg.height = (3, 3, 6, 6) := by
    show yolo_to_pixels cBox 10 10 = (3, 3, 6, 6)
    norm_num [yolo_to_pixels, cBox, pyInt_eq_floor]
  have h1 : pyInt (((3 * 3 : ℤ) : ℚ) * cDraw.ratio * cDraw.aspect) = 2 := by
    rw [pyInt_eq_floor (by norm_num [cDraw])]
    norm_num [cDraw]
  have h2 : pyInt (((3 * 3 : ℤ) : ℚ) * cDraw.ratio / cDraw.aspect) = 2 := by
    rw [pyInt_eq_floor (by norm_num [cDraw])]
    norm_num [cDraw]
  have hs : occSize 3 3 cDraw = (1, 1) := by
    simp only [occSize, pyIntSqrt, h1, h2, show cDraw.isRect = true from rfl, if_true]
    rw [show Int.toNat 2 = 2 from rfl]
    norm_num
  have hocc : occludeBox cImg cBox cDraw DEFAULT_OCCLUSION_COLOR =
      some (fillRect cImg 3 3 4 4 DEFAULT_OCCLUSION_COLOR) := by
    simp only [occludeBox]
    rw [hyp]
    norm_num [hs, show cDraw.isRect = true from rfl, show cDraw.offX = 0 from rfl,
      show cDraw.offY = 0 from rfl]
  have happ : apply_occlusion cImg [cBox] [cDraw] DEFAULT_OCCLUSION_COLOR =
      some (fillRect cImg 3 3 4 4 DEFAULT_OCCLUSION_COLOR) := by
    simp [apply_occlusion, hocc]
  have hpix : (fillRect cImg 3 3 4 4 DEFAULT_OCCLUSION_COLOR).pix 3 3 = (128, 128, 128) := by
    norm_num [fillRect, cImg, DEFAULT_OCCLUSION_COLOR]
  refine ⟨by rw [hyp]; norm_num, by rw [hyp]; norm_num, ?_, rfl, ?_⟩
  · rw [happ, Option.map_some', hpix]
  · intro hEq
    rw [happ] at hEq
    have hp := congrArg (fun o => Option.map (fun i => Img.pix i 3 3) o) hEq
    simp only [Option.map_some', hpix] at hp
    have : (128, 128, 128) = cImg.pix 3 3 := Option.some.inj hp
    simp [cImg] at this

/-! ## C4 and C9: split-size arithmetic -/

/-- C4: for every capped total and every ratio pair, the three split sizes
sum exactly to the total (test absorbs the rounding remainder), and for
nonnegative ratios (`int()` truncation = floor there) the train and val
sizes are the floors of `total * ratio`. -/
theorem split_sizes_exact (total : ℕ) (train_ratio val_ratio : ℚ) :
    (split_sizes total train_ratio val_ratio).1 +
      (split_sizes total train_ratio val_ratio).2.1 +
      (split_sizes total train_ratio val_ratio).2.2 = total ∧
    (0 ≤ train_ratio →
      (split_sizes total train_ratio val_ratio).1 = ⌊(total : ℚ) * train_ratio⌋) ∧
    (0 ≤ val_ratio →
      (split_sizes total train_ratio val_ratio).2.1 = ⌊(total : ℚ) * val_ratio⌋) := by
  refine ⟨?_, ?_, ?_⟩
  · simp only [split_sizes]
    ring
  · intro h
    simp only [split_sizes]
    exact pyInt_eq_floor (mul_nonneg (by positivity) h)
  · intro h
    simp only [split_sizes]
    exact pyInt_eq_floor (mul_nonneg (by positivity) h)

/-- Witness for C4 at the default ratios and a concrete total. -/
theorem split_sizes_exact_witness :
    (0 : ℚ) ≤ 70 / 100 ∧
    (split_sizes 10 (70 / 100) (15 / 100)).1 = ⌊(10 : ℚ) * (70 / 100)⌋ :=
  ⟨by norm_num, (split_sizes_exact 10 (70 / 100) (15 / 100)).2.1 (by norm_num)⟩

/-- C9: splitting exactly 1000 valid pairs with ratios 0.70/0.15 and cap
1786 truncates nothing and yields sizes (700, 150, 150), for every shuffle
order (the statement quantifies over all pair lists of length 1000).  The
ratios are the exact rationals 70/100 and 15/100; the IEEE doubles
`1000 * 0.70` and `1000 * 0.15` evaluate to exactly 700.0 and 150.0, so the
rational model agrees with the Python floats at this input. -/
theorem split_1000_example : ∀ (pairs : List (String × String)),
    pairs.length = 1000 →
    capPairs pairs 1786 = pairs ∧
    split_sizes (capPairs pairs 1786).length (70 / 100) (15 / 100) =
      (700, 150, 150) := by
  intro pairs h
  have hcap : capPairs pairs 1786 = pairs := by
    simp only [capPairs, h]
    norm_num
  refine ⟨hcap, ?_⟩
  rw [hcap, h]
  have h1 : pyInt ((1000 : ℕ) * (70 / 100 : ℚ)) = 700 := by
    rw [pyInt_eq_floor (by norm_num)]
    norm_num
  have h2 : pyInt ((1000 : ℕ) * (15 / 100 : ℚ)) = 150 := by
    rw [pyInt_eq_floor (by norm_num)]
    norm_num
  simp only [split_sizes, h1, h2]
  norm_num

/-- Witness for C9 at a concrete list of 1000 pairs. -/
theorem split_1000_example_witness :
    (List.replicate 1000 (( "i", "l") : String × String)).length = 1000 ∧
    split_sizes (capPairs (List.replicate 1000 (( "i", "l") : String × String))
        1786).length (70 / 100) (15 / 100) = (700, 150, 150) :=
  ⟨List.length_replicate 1000 _, (split_1000_example _ (List.length_replicate 1000 _)).2⟩

/-! ## C5: every stage emits the label it read, verbatim -/

/-- C5: for each of the three augmentation stages (blur, brightness,
occlusion), a successfully processed image gets a label artifact under the
derived name whose content equals the source label content the stage read;
no stage recomputes a label. -/
theorem label_passthrough :
    (∀ (enc : String → String) (st : DState String String)
        (base ext suffix : String) (st' : DState String String),
        process_image enc st base ext suffix = (st', true) →
        st'.labels.lookup (base ++ suffix) = st.labels.lookup base ∧
        (st.labels.lookup base).isSome = true) ∧
    (∀ (enc : String → String) (st : DState String String)
        (base ext blabel : String) (n : ℕ) (st' : DState String String),
        generate_brightness_augmentation enc st base ext blabel n = (st', true) →
        st'.labels.lookup (base ++ "_bright" ++ blabel ++ "_aug" ++ toString n) =
          st.labels.lookup base ∧
        (st.labels.lookup base).isSome = true) ∧
    (∀ (ι : Type) (enc : ι → ι) (st : DState ι LabelContent) (base ext : String)
        (st' : DState ι LabelContent),
        runAugStep enc st base ext = (st', StepOutcome.success) →
        st'.labels.lookup (base ++ "_occ") = st.labels.lookup base ∧
        (st.labels.lookup base).isSome = true) := by
  refine ⟨?_, ?_, ?_⟩
  · intro enc st base ext suffix st' h
    unfold process_image at h
    cases hl : st.labels.lookup base with
    | none =>
      rw [hl] at h
      simp at h
    | some lbl =>
      rw [hl] at h
      cases hi : st.images.lookup (base, ext) with
      | none =>
        rw [hi] at h
        simp at h
      | some imgC =>
        rw [hi] at h
        injection h with h1 h2
        subst h1
        exact ⟨by simp [List.lookup], rfl⟩
  · intro enc st base ext blabel n st' h
    unfold generate_brightness_augmentation at h
    cases hi : st.images.lookup (base, ext) with
    | none =>
      rw [hi] at h
      simp at h
    | some imgC =>
      rw [hi] at h
      cases hl : st.labels.lookup base with
      | none =>
        rw [hl] at h
        simp at h
      | some lbl =>
        rw [hl] at h
        injection h with h1 h2
        subst h1
        exact ⟨by simp [List.lookup], rfl⟩
  · intro ι enc st base ext st' h
    unfold runAugStep at h
    split at h
    next hl => simp at h
    next lbl hl =>
      split at h
      · simp at h
      · split at h
        next hi => simp at h
        next imgC hi =>
          injection h with h1 h2
          subst h1
          rw [hl]
          exact ⟨by simp [List.lookup], rfl⟩

/-- Witness for C5: the blur stage on a one-pair directory. -/
theorem label_passthrough_witness :
    process_image id wState "a" ".jpg" "_blur" = (wStateOut, true) ∧
    wStateOut.labels.lookup ( "a" ++ "_blur") = wState.labels.lookup "a" :=
  ⟨by decide,
   (label_passthrough.1 id wState "a" ".jpg" "_blur" wStateOut (by decide)).1⟩

/-! ## C6: snapshot-then-process discipline of the batch runner -/

/-- The batch loop reads exactly the snapshot entries, in order. -/
theorem blur_foldl_reads (blurEnc : String → String) (suffix : String) :
    ∀ (l : List (String × String)) (acc : BlurRun),
      (l.foldl (blurStep blurEnc suffix) acc).readImages = acc.readImages ++ l := by
  intro l
  induction l with
  | nil => intro acc; simp
  | cons k t ih =>
    intro acc
    rw [List.foldl_cons, ih]
    simp [blurStep]

/-- A name in the key list of an association list has a `lookup` hit. -/
theorem lookup_isSome_of_mem_keys {β : Type} :
    ∀ (l : List ((String × String) × β)) (k : String × String),
      k ∈ l.map Prod.fst → (l.lookup k).isSome = true := by
  intro l
  induction l with
  | nil =>
    intro k hk
    simp at hk
  | cons e t ih =>
    intro k hk
    obtain ⟨k', v⟩ := e
    rw [List.map_cons, List.mem_cons] at hk
    by_cases hbeq : k == k'
    · simp [List.lookup, hbeq]
    · rcases hk with hk | hk
      · rw [hk] at hbeq
        simp at hbeq
      · simp only [List.lookup, hbeq]
        exact ih k hk

/-- C6: within one `blur_dataset` invocation the set of images processed is
exactly the snapshot taken before any write occurs; every snapshot entry
already exists in the initial state, so a file created during the run (one
present in the final state but not initially) is never read, augmented or
revisited by that run, for every initial directory state. -/
theorem blur_snapshot_protocol (blurEnc : String → String) (suffix : String)
    (exts : List String) (st : DState String String) :
    (blur_dataset blurEnc suffix exts st).readImages =
      get_all_current_images st exts ∧
    (∀ k, k ∈ get_all_current_images st exts →
      (st.images.lookup k).isSome = true) ∧
    (∀ k, ((blur_dataset blurEnc suffix exts st).state.images.lookup k).isSome = true →
      k ∉ st.images.map Prod.fst → k ∉ get_all_current_images st exts) := by
  refine ⟨?_, ?_, ?_⟩
  · unfold blur_dataset
    rw [blur_foldl_reads]
    simp
  · intro k hk
    exact lookup_isSome_of_mem_keys st.images k (List.mem_of_mem_filter hk)
  · intro k _ hnot hmem
    exact hnot (List.mem_of_mem_filter hmem)

/-- Witness for C6 on a concrete one-pair directory state. -/
theorem blur_snapshot_protocol_witness :
    (( "a", ".jpg") ∈ get_all_current_images wState [ ".jpg"]) ∧
    (wState.images.lookup ( "a", ".jpg")).isSome = true :=
  ⟨by decide,
   (blur_snapshot_protocol id "_blur" [ ".jpg"] wState).2.1 ( "a", ".jpg") (by decide)⟩

/-! ## C7: a missing label is counted as failed by blur_dataset -/

/-- C7 (code behaviour at the failing input): on a state holding one image
and no label, `blur_dataset` leaves the state unchanged, creates nothing,
and reports the image in the `failed` count — `process_image` returns
`False` for the missing-label case (even though it prints a skip message),
and `blur_dataset` counts every `False` as failed. -/
theorem blur_missing_label_counted_failed :
    noLabelState.labels.lookup "a" = none ∧
    (blur_dataset id "_blur" [ ".jpg"] noLabelState).processed = 0 ∧
    (blur_dataset id "_blur" [ ".jpg"] noLabelState).failed = 1 ∧
    (blur_dataset id "_blur" [ ".jpg"] noLabelState).state = noLabelState := by
  refine ⟨rfl, ?_, ?_, ?_⟩ <;> rfl

/-! ## C10: unparsable labels are skipped; every variant has a parsed box -/

/-- Every label present after one occlusion step is either original or has
at least one parsed box. -/
theorem runAugStep_labels {ι : Type} (enc : ι → ι) (st : DState ι LabelContent)
    (base ext : String) :
    ∀ p ∈ (runAugStep enc st base ext).1.labels,
      p ∈ st.labels ∨ parse_label_file (some p.2) ≠ [] := by
  intro p hp
  unfold runAugStep at hp
  split at hp
  next hl => exact Or.inl hp
  next lbl hl =>
    split at hp
    · exact Or.inl hp
    next he =>
      split at hp
      next hi => exact Or.inl hp
      next imgC hi =>
        rcases List.mem_cons.1 hp with h | h
        · right
          rw [h]
          simpa [List.isEmpty_iff] using he
        · exact Or.inl h

/-- Every label present after the full occlusion run is either original or
has at least one parsed box (fold invariant). -/
theorem occRun_labels {ι : Type} (enc : ι → ι) :
    ∀ (l : List (String × String)) (acc : OccRun ι) (p : String × LabelContent),
      p ∈ (l.foldl (occRunStep enc) acc).state.labels →
      p ∈ acc.state.labels ∨ parse_label_file (some p.2) ≠ [] := by
  intro l
  induction l with
  | nil =>
    intro acc p hp
    exact Or.inl hp
  | cons k t ih =>
    intro acc p hp
    rw [List.foldl_cons] at hp
    rcases ih (occRunStep enc acc k) p hp with h | h
    · exact runAugStep_labels enc acc.state k.1 k.2 p h
    · exact Or.inr h

/-- C10: an image whose label is missing, empty, or has no parsable line
(`parse_label_file` returns no box) is skipped by `run_augmentation` with no
output image and no output label written and the skip counter incremented;
consequently every label the run creates (any label in the final state that
is not original) parses to at least one box, so every occlusion variant
derives from an image with a parsed box. -/
theorem run_augmentation_skips_unparsed :
    (∀ (ι : Type) (enc : ι → ι) (st : DState ι LabelContent) (base ext : String),
        parse_label_file (st.labels.lookup base) = [] →
        runAugStep enc st base ext = (st, StepOutcome.skipped)) ∧
    (∀ (ι : Type) (enc : ι → ι) (exts : List String) (st : DState ι LabelContent)
        (p : String × LabelContent),
        p ∈ (run_augmentation enc exts st).state.labels →
        p ∈ st.labels ∨ parse_label_file (some p.2) ≠ []) := by
  constructor
  · intro ι enc st base ext h
    unfold runAugStep
    cases hl : st.labels.lookup base with
    | none => rfl
    | some lbl =>
      rw [hl] at h
      simp [h]
  · intro ι enc exts st p hp
    exact occRun_labels enc (get_all_current_images st exts) ⟨st, 0, 0, 0⟩ p hp

/-- Witness for C10 at a concrete state whose one label line is a single
unparsable token. -/
theorem run_augmentation_skips_unparsed_witness :
    parse_label_file (badLblState.labels.lookup "a") = [] ∧
    runAugStep (id : ℕ → ℕ) badLblState "a" ".jpg" =
      (badLblState, StepOutcome.skipped) :=
  ⟨by decide,
   run_augmentation_skips_unparsed.1 ℕ id badLblState "a" ".jpg" (by decide)⟩

/-! ## C8: merging with prefixed names -/

/-- Folding `copyNew` over pairwise-distinct fresh names appends them all. -/
theorem foldl_copyNew {β : Type} [DecidableEq β] :
    ∀ (names : List β) (acc : List β), names.Nodup → (∀ n ∈ names, n ∉ acc) →
      names.foldl copyNew acc = acc ++ names := by
  intro names
  induction names with
  | nil =>
    intro acc _ _
    simp
  | cons n t ih =>
    intro acc hnd hfresh
    have hn : n ∉ acc := hfresh n (List.mem_cons_self n t)
    rw [List.foldl_cons, show copyNew acc n = acc ++ [n] from if_neg hn,
      ih (acc ++ [n]) (List.Nodup.of_cons hnd) ?_]
    · simp
    · intro m hm
      rw [List.mem_append]
      rintro (hc | hc)
      · exact hfresh m (List.mem_cons_of_mem n hm) hc
      · rw [List.mem_singleton] at hc
        subst hc
        exact (List.nodup_cons.1 hnd).1 hm

/-- The merge fold acts componentwise as two `copyNew` folds over the
derived image and label names. -/
theorem mergeFold_components (prefixed : Bool) :
    ∀ (tasks : List (String × String × String)) (r : MergeResult),
      (tasks.foldl (mergeStep prefixed) r).destImages =
        (tasks.map (fun t => (newStem prefixed t, t.2.1))).foldl copyNew r.destImages ∧
      (tasks.foldl (mergeStep prefixed) r).destLabels =
        (tasks.map (fun t => newStem prefixed t)).foldl copyNew r.destLabels := by
  intro tasks
  induction tasks with
  | nil =>
    intro r
    exact ⟨rfl, rfl⟩
  | cons t ts ih =>
    intro r
    rw [List.foldl_cons, List.map_cons, List.map_cons, List.foldl_cons,
      List.foldl_cons]
    exact ih (mergeStep prefixed r t)

/-- C8 (amended): merging two dataset roots with `add_prefix` true yields an
image count and a label count both equal to the sum of the two sources'
matched-pair counts, with zero destination base-name collisions, provided
the prefixed destination base names `{tag}_{stem}` are pairwise distinct —
disjointness of the two matched stem sets alone does not guarantee that,
since tag/stem concatenations can coincide. -/
theorem merge_two_sources_counts (s1 s2 : MSource)
    (hdisj : ∀ stem, stem ∈ (matchedTasks s1).map (fun t => t.1) →
      stem ∉ (matchedTasks s2).map (fun t => t.1))
    (hnames : (((matchedTasks s1 ++ matchedTasks s2).map (newStem true))).Nodup) :
    (merge_datasets [s1, s2] true).destImages.length =
      (matchedTasks s1).length + (matchedTasks s2).length ∧
    (merge_datasets [s1, s2] true).destLabels.length =
      (matchedTasks s1).length + (matchedTasks s2).length ∧
    (merge_datasets [s1, s2] true).destLabels =
      (matchedTasks s1 ++ matchedTasks s2).map (newStem true) := by
  have htasks : (([s1, s2].map matchedTasks).flatten) =
      matchedTasks s1 ++ matchedTasks s2 := by
    simp
  have hcomp := mergeFold_components true (matchedTasks s1 ++ matchedTasks s2)
    ⟨[], []⟩
  have himg_nodup :
      ((matchedTasks s1 ++ matchedTasks s2).map
        (fun t => (newStem true t, t.2.1))).Nodup := by
    have : ((matchedTasks s1 ++ matchedTasks s2).map
        (fun t => (newStem true t, t.2.1))).map Prod.fst =
        (matchedTasks s1 ++ matchedTasks s2).map (newStem true) := by
      rw [List.map_map]
      rfl
    exact List.Nodup.of_map Prod.fst (this ▸ hnames)
  have himg := foldl_copyNew ((matchedTasks s1 ++ matchedTasks s2).map
      (fun t => (newStem true t, t.2.1))) [] himg_nodup (by simp)
  have hlbl := foldl_copyNew ((matchedTasks s1 ++ matchedTasks s2).map
      (newStem true)) [] hnames (by simp)
  unfold merge_datasets
  rw [htasks]
  refine ⟨?_, ?_, ?_⟩
  · rw [hcomp.1, himg]
    simp
  · rw [hcomp.2, hlbl]
    simp
  · rw [hcomp.2, hlbl]
    simp

/-- Witness for the amended C8 on two concrete one-pair sources. -/
theorem merge_two_sources_counts_witness :
    ((((matchedTasks wSrc1 ++ matchedTasks wSrc2).map (newStem true))).Nodup) ∧
    (merge_datasets [wSrc1, wSrc2] true).destImages.length =
      (matchedTasks wSrc1).length + (matchedTasks wSrc2).length :=
  ⟨by decide,
   (merge_two_sources_counts wSrc1 wSrc2 (by decide) (by decide)).1⟩

/-- C8 (counterexample): the sources `mSrcA` (tag `a`, stem `b_c`) and
`mSrcAB` (tag `a_b`, stem `c`) have disjoint matched base-name sets, yet
with `add_prefix` true both pairs get destination base name `a_b_c`: the
merge writes one image and one label instead of two, and the destination
base names collide. -/
theorem merge_prefix_collision :
    ((matchedTasks mSrcA).map (fun t => t.1) = [ "b_c"]) ∧
    ((matchedTasks mSrcAB).map (fun t => t.1) = [ "c"]) ∧
    (matchedTasks mSrcA).length + (matchedTasks mSrcAB).length = 2 ∧
    (merge_datasets [mSrcA, mSrcAB] true).destImages.length = 1 ∧
    (merge_datasets [mSrcA, mSrcAB] true).destLabels.length = 1 ∧
    ¬ (((matchedTasks mSrcA ++ matchedTasks mSrcAB).map (newStem true)).Nodup) := by
  refine ⟨?_, ?_, ?_, ?_, ?_, ?_⟩ <;> decide
